import Mathlib

set_option maxRecDepth 8000
set_option maxHeartbeats 1000000

/-!
# Shallow embedding of the jpeg-decoder header parser (src/main.cpp)

This file embeds the data model and the operations of the JFIF/JPEG header
parser: the canonical Huffman table builder (`HuffmanTable::from_size_data`
and `HuffmanTable::make_code_table`), the segment decoders
(`parse_jfif_data`, `parse_quantization_table`, `parse_huffman_table`) and
the marker-scanning loop (`JPEGParser::parse`).

Conventions of the embedding:
* Bytes and machine integers are `Nat`; `unsigned short` arithmetic is taken
  modulo 2^16 exactly where the source can overflow (the running Huffman
  code value).
* The source performs raw, unchecked accesses (`raw_data[index]`,
  `std::copy` with unchecked iterators, `std::vector::operator[]`).  An
  access past the end of the accessed container is undefined behavior in the
  C++; here every such access is modelled as an explicit lookup that fails
  (`Option`/`Except`) when out of bounds, so the out-of-bounds situations of
  the source appear as explicit failure values.
* The parser's member variable `index` is threaded explicitly: each decoding
  routine takes the buffer and the current index, and returns the value
  together with the new index.
* The `while` loops of the scanner are embedded with a fuel parameter; the
  loop exit condition is evaluated even at fuel 0, and every loop strictly
  advances `index`, so fuel at least the number of iterations makes the
  `fuelOut` marker unreachable at the call sites used here.
-/

namespace JpegDec

/-- Failure modes of the embedded parser.
`oob pos` is an out-of-bounds access into `raw_data` at position `pos`
(undefined behavior in the C++ source, which performs no bounds checks);
`oobLocal` is an out-of-bounds access into a local vector inside the
Huffman builder; `invalidMarkerPrefixAt pos` is the source's bare
`throw;` taken when the byte at scan position `pos` is not 0xFF;
`fuelOut` is the fuel-exhaustion marker of the loop embedding, unreachable
when enough fuel is supplied. -/
inductive PErr where
  | oob (pos : Nat)
  | oobLocal
  | invalidMarkerPrefixAt (pos : Nat)
  | fuelOut
deriving DecidableEq

/-- Decidable equality for `Except`, so that concrete runs of the embedded
parser can be checked by `decide`. -/
instance {ε α : Type} [DecidableEq ε] [DecidableEq α] (x y : Except ε α) :
    Decidable (x = y) :=
  match x, y with
  | Except.ok a, Except.ok b => decidable_of_iff (a = b) (by simp)
  | Except.error e, Except.error f => decidable_of_iff (e = f) (by simp)
  | Except.ok _, Except.error _ => Decidable.isFalse (by simp)
  | Except.error _, Except.ok _ => Decidable.isFalse (by simp)

/-- `struct RGB` of the source: one thumbnail pixel. -/
structure RGB where
  r : Nat
  g : Nat
  b : Nat
deriving DecidableEq

/-- `struct JFIFVersion` of the source. -/
structure JFIFVersion where
  major : Nat
  minor : Nat
deriving DecidableEq

/-- `enum class DensityUnit {NoUnit, PixelPerInch, PixelPerCm}`.
The source stores the raw density byte by a plain cast
`(DensityUnit) raw_data[index]` with no validation, so the field is
embedded as the stored byte; these constants are the enumerators'
underlying values 0, 1, 2. -/
def DensityUnit.NoUnit : Nat := 0

/-- Underlying value of the enumerator `DensityUnit::PixelPerInch`. -/
def DensityUnit.PixelPerInch : Nat := 1

/-- Underlying value of the enumerator `DensityUnit::PixelPerCm`. -/
def DensityUnit.PixelPerCm : Nat := 2

/-- `struct JFIFData` of the source.  `density_unit` holds the raw byte
stored by the cast (see `DensityUnit.NoUnit`). -/
structure JFIFData where
  version : JFIFVersion
  density_unit : Nat
  x_density : Nat
  y_density : Nat
  x_thumbnail : Nat
  y_thumbnail : Nat
  thumbnail_data : List RGB
deriving DecidableEq

/-- `struct QuantizationTable`: just the 64 coefficients
(`std::array<unsigned short, 64>`); the source stores no identifier. -/
structure QuantizationTable where
  data : List Nat
deriving DecidableEq

/-- `struct HuffmanCode`: bit length, canonical code value, decoded symbol. -/
structure HuffmanCode where
  length : Nat
  code : Nat
  value : Nat
deriving DecidableEq

/-- `struct HuffmanTable`: the list of codes. -/
structure HuffmanTable where
  codes : List HuffmanCode
deriving DecidableEq

/-- Modelled from the spec: `u8_to_u16` comes from `utils.h`, which is not
in the sources; the spec says the two-byte densities are read big-endian,
so the first byte is the high byte. -/
def u8_to_u16 (hi lo : Nat) : Nat :=
  hi * 256 + lo

/-- One byte of `raw_data`, failing with `PErr.oob` when the position is
past the end (the source reads `raw_data[index]` unchecked). -/
def byteAt (raw_data : List Nat) (i : Nat) : Except PErr Nat :=
  match raw_data.get? i with
  | some b => Except.ok b
  | none => Except.error (PErr.oob i)

/-- `n` consecutive bytes of `raw_data` starting at `i` (the source's
`std::copy(raw_data.begin() + index, raw_data.begin() + index + n, ...)`,
whose past-the-end reads are undefined behavior). -/
def readBytes (raw_data : List Nat) : Nat → Nat → Except PErr (List Nat)
  | _, 0 => pure []
  | i, n + 1 => do
    let b ← byteAt raw_data i
    let rest ← readBytes raw_data (i + 1) n
    pure (b :: rest)

/-- The thumbnail loop of `parse_jfif_data`: `k` more iterations, current
loop counter `i`; iteration `i` reads `raw_data[i]`, `raw_data[i+1]`,
`raw_data[i+2]` — absolute positions from the start of the buffer, not
relative to the parser's `index`. -/
def readThumb (raw_data : List Nat) : Nat → Nat → Except PErr (List RGB)
  | _, 0 => pure []
  | i, k + 1 => do
    let r ← byteAt raw_data i
    let g ← byteAt raw_data (i + 1)
    let b ← byteAt raw_data (i + 2)
    let rest ← readThumb raw_data (i + 1) k
    pure (RGB.mk r g b :: rest)

/-- The value computed by the thumbnail loop when every access is in
bounds: pixel `j` of a `k`-pixel thumbnail read with loop counter starting
at `i` is made of the bytes at positions `i+j`, `i+j+1`, `i+j+2` of the
buffer.  `readThumb raw_data i k` equals `Except.ok (thumbPix raw_data i k)`
whenever its accesses stay in bounds (`readThumb_eq`). -/
def thumbPix (raw_data : List Nat) : Nat → Nat → List RGB
  | _, 0 => []
  | i, k + 1 =>
    RGB.mk (raw_data.getD i 0) (raw_data.getD (i + 1) 0) (raw_data.getD (i + 2) 0) ::
      thumbPix raw_data (i + 1) k

/-- `n` doublings of `code` in `unsigned short` arithmetic: the body of the
`while (size > current_size)` loop of `make_code_table` runs once per unit
of difference, executing `code <<= 1` each time. -/
def shiftIter : Nat → Nat → Nat
  | 0, code => code
  | n + 1, code => shiftIter n (code * 2 % 65536)

/-- The `while (size > current_size)` loop of `make_code_table`: doubles
`code` (mod 2^16) once per increment of `current_size` until
`current_size` reaches `size`; returns the updated pair. -/
def carry (code current_size size : Nat) : Nat × Nat :=
  if size ≤ current_size then (code, current_size)
  else (shiftIter (size - current_size) code, size)

/-- The `for (unsigned char size : sizes)` loop of `make_code_table`:
push the carried code, stop after pushing when `current_size > 16` or the
pushed code equals 0xFFFF, otherwise increment the code (mod 2^16) and
continue. -/
def mctLoop : List Nat → Nat → Nat → List Nat
  | [], _, _ => []
  | size :: rest, code, current_size =>
    let p := carry code current_size size
    p.1 :: (if 16 < p.2 ∨ p.1 = 65535 then [] else mctLoop rest ((p.1 + 1) % 65536) p.2)

/-- `HuffmanTable::make_code_table`.  The source initializes
`current_size = sizes[0]` before the loop; on an empty `sizes` vector that
read is out of bounds, modelled as `none`. -/
def HuffmanTable.make_code_table (sizes : List Nat) : Option (List Nat) :=
  match sizes with
  | [] => none
  | s :: _ => some (mctLoop sizes 0 s)

/-- The same code walk as `mctLoop` but in unbounded integers (no
reduction modulo 2^16).  This is the spec-side comparator used to exhibit
wraparound of the 16-bit code value: a position where the two walks differ
carries a value reduced modulo 2^16. -/
def mctLoopUnbounded : List Nat → Nat → Nat → List Nat
  | [], _, _ => []
  | size :: rest, code, current_size =>
    let p := if size ≤ current_size then (code, current_size)
             else (code * 2 ^ (size - current_size), size)
    p.1 :: (if 16 < p.2 ∨ p.1 = 65535 then [] else mctLoopUnbounded rest (p.1 + 1) p.2)

/-- Spec-side comparator for `HuffmanTable.make_code_table` in unbounded
integers; see `mctLoopUnbounded`. -/
def make_code_table_unbounded (sizes : List Nat) : Option (List Nat) :=
  match sizes with
  | [] => none
  | s :: _ => some (mctLoopUnbounded sizes 0 s)

/-- The double loop of `from_size_data` that expands `size_data` into the
flat `codes_length` vector: length `i+1` is pushed `size_data[i]` times,
in ascending order of `i`. -/
def expandLengths : Nat → List Nat → List Nat
  | _, [] => []
  | i, c :: rest => List.replicate c (i + 1) ++ expandLengths (i + 1) rest

/-- The pairing loop of `from_size_data`:
`for i < data_area.size(): push {codes_length[i], code_table[i], data_area[i]}`.
When either vector is shorter than `data_area` the access at the first
missing index is out of bounds, modelled as `none`. -/
def pairCodes : List Nat → List Nat → List Nat → Option (List HuffmanCode)
  | _, _, [] => some []
  | l :: ls, c :: cs, v :: vs =>
    match pairCodes ls cs vs with
    | some t => some (HuffmanCode.mk l c v :: t)
    | none => none
  | _, _, _ => none

/-- `HuffmanTable::from_size_data`: expand the per-length counts, build the
code table, pair each symbol of `data_area` with its length and code. -/
def HuffmanTable.from_size_data (size_data : List Nat) (data_area : List Nat) :
    Option HuffmanTable :=
  let codes_length := expandLengths 0 size_data
  match HuffmanTable.make_code_table codes_length with
  | none => none
  | some code_table =>
    match pairCodes codes_length code_table data_area with
    | some codes => some (HuffmanTable.mk codes)
    | none => none

/-- `JPEGParser::parse_jfif_data`, with the member `index` threaded
explicitly.  The precision of the source is kept: the 5 identifier bytes
are skipped without any check, and the thumbnail loop reads from absolute
position 0 of the buffer (see `readThumb`), leaving `index` untouched. -/
def parse_jfif_data (raw_data : List Nat) (index : Nat) :
    Except PErr (JFIFData × Nat) := do
  let index := index + 5
  let vmaj ← byteAt raw_data index
  let vmin ← byteAt raw_data (index + 1)
  let index := index + 2
  let du ← byteAt raw_data index
  let index := index + 1
  let xdh ← byteAt raw_data index
  let xdl ← byteAt raw_data (index + 1)
  let ydh ← byteAt raw_data (index + 2)
  let ydl ← byteAt raw_data (index + 3)
  let index := index + 4
  let x_thumbnail ← byteAt raw_data index
  let y_thumbnail ← byteAt raw_data (index + 1)
  let index := index + 2
  let thumbnail_data ← readThumb raw_data 0 (x_thumbnail * y_thumbnail)
  pure (JFIFData.mk (JFIFVersion.mk vmaj vmin) du
    (u8_to_u16 xdh xdl) (u8_to_u16 ydh ydl) x_thumbnail y_thumbnail thumbnail_data, index)

/-- `JPEGParser::parse_quantization_table`.  The precision and identifier
nibbles of the first byte are parsed into `[[maybe_unused]]` locals in the
source and discarded; the 64 coefficients are copied in wire order. -/
def parse_quantization_table (raw_data : List Nat) (index : Nat) :
    Except PErr (QuantizationTable × Nat) := do
  let _b ← byteAt raw_data index
  let index := index + 1
  let table_data ← readBytes raw_data index 64
  pure (QuantizationTable.mk table_data, index + 64)

/-- `JPEGParser::parse_huffman_table`: 16 count bytes, their sum many
symbol bytes, then `HuffmanTable::from_size_data`.  An out-of-bounds
vector access inside the builder surfaces as `PErr.oobLocal`. -/
def parse_huffman_table (raw_data : List Nat) (index : Nat) :
    Except PErr (HuffmanTable × Nat) := do
  let size_data ← readBytes raw_data index 16
  let index := index + 16
  let codes_count := size_data.sum
  let data_area ← readBytes raw_data index codes_count
  let index := index + codes_count
  match HuffmanTable.from_size_data size_data data_area with
  | some t => pure (t, index)
  | none => Except.error PErr.oobLocal

/-- `struct JPEGEncoded`: the aggregate returned by `JPEGParser::parse`.
The fixed-size arrays (4 quantization slots, 32 AC and 32 DC Huffman
slots) are lists of that length. -/
structure JPEGEncoded where
  metadata : JFIFData
  q_tables : List QuantizationTable
  q_tables_nbr : Nat
  huffman_ac_tables : List HuffmanTable
  huffman_dc_tables : List HuffmanTable
deriving DecidableEq

/-- The local `JFIFData jfif_data;` of `parse` is default-initialized: the
scalar members are indeterminate in the C++ and the vector is empty; the
scalars are modelled as zero (no claim depends on them). -/
def JFIFData.default0 : JFIFData :=
  JFIFData.mk (JFIFVersion.mk 0 0) 0 0 0 0 0 []

/-- A value-initialized `QuantizationTable{}`: 64 zero coefficients. -/
def QuantizationTable.zero : QuantizationTable :=
  QuantizationTable.mk (List.replicate 64 0)

/-- A value-initialized `HuffmanTable{}`: empty code vector. -/
def HuffmanTable.empty : HuffmanTable :=
  HuffmanTable.mk []

/-- The `while (index < segment_end)` loop of the DQT (0xdb) case of
`parse`: decode a table, store it at slot `q_tables_nbr` (the identifier
nibble plays no part), increment the count.  Storing at slot 4 or beyond
is an out-of-bounds write into `std::array<QuantizationTable, 4>`,
modelled as `PErr.oobLocal`. -/
def dqtLoop (raw_data : List Nat) (segment_end : Nat) :
    Nat → Nat → List QuantizationTable → Nat →
    Except PErr (List QuantizationTable × Nat × Nat)
  | 0, index, q_tables, q_tables_nbr =>
    if index < segment_end then Except.error PErr.fuelOut
    else pure (q_tables, q_tables_nbr, index)
  | fuel + 1, index, q_tables, q_tables_nbr =>
    if index < segment_end then do
      let r ← parse_quantization_table raw_data index
      if q_tables_nbr < 4 then
        dqtLoop raw_data segment_end fuel r.2 (q_tables.set q_tables_nbr r.1) (q_tables_nbr + 1)
      else Except.error PErr.oobLocal
    else pure (q_tables, q_tables_nbr, index)

/-- The `while (index < segment_end)` loop of the DHT (0xc4) case of
`parse`: read the class/identifier byte, decode a table, store it in the
DC array (class 0) or the AC array (otherwise) at slot `table_dest_id`. -/
def dhtLoop (raw_data : List Nat) (segment_end : Nat) :
    Nat → Nat → List HuffmanTable → List HuffmanTable →
    Except PErr (List HuffmanTable × List HuffmanTable × Nat)
  | 0, index, dc, ac =>
    if index < segment_end then Except.error PErr.fuelOut
    else pure (dc, ac, index)
  | fuel + 1, index, dc, ac =>
    if index < segment_end then do
      let b ← byteAt raw_data index
      let table_class := b / 16
      let table_dest_id := b % 16
      let index := index + 1
      let r ← parse_huffman_table raw_data index
      if table_class = 0 then
        dhtLoop raw_data segment_end fuel r.2 (dc.set table_dest_id r.1) ac
      else
        dhtLoop raw_data segment_end fuel r.2 dc (ac.set table_dest_id r.1)
    else pure (dc, ac, index)

/-- The `while (index < raw_data.size())` marker-scanning loop of
`JPEGParser::parse`.  The loop condition guarantees the scan-position read
is in bounds; a non-0xFF byte there is the source's bare `throw;`
(`PErr.invalidMarkerPrefixAt`).  Markers 0xD8/0xD9 carry no length; all
others read a big-endian length whose span ends at
`segment_end = index + length` (computed before the two length bytes are
skipped). -/
def parseLoop (raw_data : List Nat) :
    Nat → Nat → JFIFData → List QuantizationTable → Nat →
    List HuffmanTable → List HuffmanTable → Except PErr JPEGEncoded
  | 0, index, jfif_data, q_tables, q_tables_nbr, dc, ac =>
    if index < raw_data.length then Except.error PErr.fuelOut
    else pure (JPEGEncoded.mk jfif_data q_tables q_tables_nbr ac dc)
  | fuel + 1, index, jfif_data, q_tables, q_tables_nbr, dc, ac =>
    if index < raw_data.length then
      let b := raw_data.getD index 0
      if b = 0xff then do
        let marker ← byteAt raw_data (index + 1)
        let index := index + 2
        if marker = 0xd8 ∨ marker = 0xd9 then
          parseLoop raw_data fuel index jfif_data q_tables q_tables_nbr dc ac
        else do
          let hi ← byteAt raw_data index
          let lo ← byteAt raw_data (index + 1)
          let len := hi * 256 + lo
          let segment_end := index + len
          let index := index + 2
          if marker = 0xe0 then do
            let r ← parse_jfif_data raw_data index
            parseLoop raw_data fuel r.2 r.1 q_tables q_tables_nbr dc ac
          else if marker = 0xdb then do
            let r ← dqtLoop raw_data segment_end segment_end index q_tables q_tables_nbr
            parseLoop raw_data fuel r.2.2 jfif_data r.1 r.2.1 dc ac
          else if marker = 0xc4 then do
            let r ← dhtLoop raw_data segment_end segment_end index dc ac
            parseLoop raw_data fuel r.2.2 jfif_data q_tables q_tables_nbr r.1 r.2.1
          else if marker = 0xc0 then
            parseLoop raw_data fuel (index + len - 2) jfif_data q_tables q_tables_nbr dc ac
          else if marker = 0xda then
            parseLoop raw_data fuel (index + (raw_data.length - index))
              jfif_data q_tables q_tables_nbr dc ac
          else
            parseLoop raw_data fuel (index + len - 2) jfif_data q_tables q_tables_nbr dc ac
      else Except.error (PErr.invalidMarkerPrefixAt index)
    else pure (JPEGEncoded.mk jfif_data q_tables q_tables_nbr ac dc)

/-- `JPEGParser::parse` on a freshly constructed parser (index 0, default
members).  Each loop iteration advances `index` by at least 2, so fuel
`raw_data.length + 1` is enough for the loop to reach its exit condition. -/
def parse (raw_data : List Nat) : Except PErr JPEGEncoded :=
  parseLoop raw_data (raw_data.length + 1) 0 JFIFData.default0
    (List.replicate 4 QuantizationTable.zero) 0
    (List.replicate 32 HuffmanTable.empty) (List.replicate 32 HuffmanTable.empty)

/-! ## Helper lemmas -/

/-- Binding a successful `Except` computation applies the continuation. -/
theorem ok_bind {α β : Type} (a : α) (f : α → Except PErr β) :
    Bind.bind (Except.ok a : Except PErr α) f = f a := rfl

/-- `pure` of the `Except` monad is `Except.ok`. -/
theorem pure_eq_ok {α : Type} (a : α) :
    (pure a : Except PErr α) = Except.ok a := rfl

/-- An in-bounds single-byte read succeeds and yields the byte. -/
theorem byteAt_lt (raw_data : List Nat) (i : Nat) (h : i < raw_data.length) :
    byteAt raw_data i = Except.ok (raw_data.getD i 0) := by
  unfold byteAt
  rw [List.get?_eq_getElem?, List.getElem?_eq_getElem h,
    List.getD_eq_getElem?_getD, List.getElem?_eq_getElem h]
  rfl

/-- An in-bounds bulk read succeeds and yields the corresponding slice. -/
theorem readBytes_eq (raw_data : List Nat) :
    ∀ (n i : Nat), i + n ≤ raw_data.length →
    readBytes raw_data i n = Except.ok ((raw_data.drop i).take n)
  | 0, i, _ => by simp [readBytes, pure_eq_ok]
  | n + 1, i, h => by
    have hi : i < raw_data.length := by omega
    have ih := readBytes_eq raw_data n (i + 1) (by omega)
    have hd : raw_data.drop i = raw_data.getD i 0 :: raw_data.drop (i + 1) := by
      rw [List.drop_eq_getElem_cons hi, List.getD_eq_getElem?_getD,
        List.getElem?_eq_getElem hi]
      rfl
    simp only [readBytes, byteAt_lt raw_data i hi, ok_bind, ih, pure_eq_ok, hd,
      List.take_succ_cons]

/-- An in-bounds thumbnail loop succeeds and yields `thumbPix`. -/
theorem readThumb_eq (raw_data : List Nat) :
    ∀ (k i : Nat), k = 0 ∨ i + k + 1 < raw_data.length →
    readThumb raw_data i k = Except.ok (thumbPix raw_data i k)
  | 0, i, _ => by simp [readThumb, thumbPix, pure_eq_ok]
  | k + 1, i, h => by
    have hlen : i + k + 2 < raw_data.length := by rcases h with h | h <;> omega
    have ih := readThumb_eq raw_data k (i + 1) (Or.inr (by omega))
    simp only [readThumb, thumbPix, byteAt_lt raw_data i (by omega),
      byteAt_lt raw_data (i + 1) (by omega), byteAt_lt raw_data (i + 2) (by omega),
      ih, ok_bind, pure_eq_ok]

/-- The thumbnail list has one entry per loop iteration. -/
theorem thumbPix_length (raw_data : List Nat) :
    ∀ (k i : Nat), (thumbPix raw_data i k).length = k
  | 0, _ => rfl
  | k + 1, i => by simp [thumbPix, thumbPix_length raw_data k (i + 1)]

/-- Pixel `j` of the thumbnail read with loop counter starting at `i` is
made of the bytes at buffer positions `i+j`, `i+j+1` and `i+j+2`. -/
theorem thumbPix_get? (raw_data : List Nat) :
    ∀ (k i j : Nat), j < k →
    (thumbPix raw_data i k).get? j = some (RGB.mk (raw_data.getD (i + j) 0)
      (raw_data.getD (i + j + 1) 0) (raw_data.getD (i + j + 2) 0))
  | 0, _, _, h => absurd h (by omega)
  | k + 1, i, 0, _ => by simp [thumbPix]
  | k + 1, i, j + 1, h => by
    have ih := thumbPix_get? raw_data k (i + 1) j (by omega)
    have e1 : i + (j + 1) = i + 1 + j := by omega
    simp only [thumbPix, List.get?_cons_succ]
    rw [e1]
    exact ih

/-- The expanded lengths sequence has `sum of the counts` entries. -/
theorem expandLengths_length :
    ∀ (i : Nat) (cs : List Nat), (expandLengths i cs).length = cs.sum
  | _, [] => rfl
  | i, c :: rest => by
    simp [expandLengths, expandLengths_length (i + 1) rest]

/-- When both the lengths vector and the code table are at least as long
as the symbol list, the pairing loop stays in bounds and produces one
Huffman code per symbol. -/
theorem pairCodes_length :
    ∀ (D L C : List Nat), D.length ≤ L.length → D.length ≤ C.length →
    (pairCodes L C D).map List.length = some D.length
  | [], L, C, _, _ => by
    cases L <;> cases C <;> rfl
  | v :: vs, [], C, h1, _ => by simp at h1
  | v :: vs, l :: ls, [], _, h2 => by simp at h2
  | v :: vs, l :: ls, c :: cs, h1, h2 => by
    have ih := pairCodes_length vs ls cs (by simpa using h1) (by simpa using h2)
    cases hp : pairCodes ls cs vs with
    | none => rw [hp] at ih; simp at ih
    | some t =>
      rw [hp] at ih
      have ht : t.length = vs.length := by simpa using ih
      simp [pairCodes, hp, ht]

/-- Once the code-assignment walk pushes the sentinel value 0xFFFF it
stops: a 0xFFFF entry is always the last entry of the produced table. -/
theorem mctLoop_sentinel :
    ∀ (sizes : List Nat) (code cur i : Nat),
    (mctLoop sizes code cur).get? i = some 65535 →
    (mctLoop sizes code cur).length = i + 1 := by
  intro sizes
  induction sizes with
  | nil => intro code cur i h; simp [mctLoop] at h
  | cons s rest ih =>
    intro code cur i h
    simp only [mctLoop] at h ⊢
    by_cases hc : 16 < (carry code cur s).2 ∨ (carry code cur s).1 = 65535
    · simp only [if_pos hc] at h ⊢
      cases i with
      | zero => rfl
      | succ j => simp at h
    · simp only [if_neg hc] at h ⊢
      cases i with
      | zero =>
        simp only [List.get?_cons_zero, Option.some.injEq] at h
        exact absurd (Or.inr h) hc
      | succ j =>
        simp only [List.get?_cons_succ] at h
        simp [ih _ _ _ h]

/-- Full evaluation of `parse_jfif_data` when the header reads and the
thumbnail loop stay in bounds: the fields are the bytes at offsets
`x+5 .. x+13`, the thumbnail pixels come from absolute positions
`0, 1, 2, ...` of the buffer, and the final index is `x + 14`. -/
theorem parse_jfif_data_eq (raw_data : List Nat) (x : Nat)
    (h13 : x + 13 < raw_data.length)
    (hwh : raw_data.getD (x + 12) 0 * raw_data.getD (x + 13) 0 = 0 ∨
           raw_data.getD (x + 12) 0 * raw_data.getD (x + 13) 0 + 1 < raw_data.length) :
    parse_jfif_data raw_data x = Except.ok
      (JFIFData.mk (JFIFVersion.mk (raw_data.getD (x + 5) 0) (raw_data.getD (x + 6) 0))
        (raw_data.getD (x + 7) 0)
        (u8_to_u16 (raw_data.getD (x + 8) 0) (raw_data.getD (x + 9) 0))
        (u8_to_u16 (raw_data.getD (x + 10) 0) (raw_data.getD (x + 11) 0))
        (raw_data.getD (x + 12) 0) (raw_data.getD (x + 13) 0)
        (thumbPix raw_data 0 (raw_data.getD (x + 12) 0 * raw_data.getD (x + 13) 0)),
       x + 14) := by
  have hrt := readThumb_eq raw_data (raw_data.getD (x + 12) 0 * raw_data.getD (x + 13) 0) 0
    (by rcases hwh with h | h
        · exact Or.inl h
        · exact Or.inr (by omega))
  simp only [parse_jfif_data, Nat.add_assoc, Nat.reduceAdd,
    byteAt_lt raw_data (x + 5) (by omega), byteAt_lt raw_data (x + 6) (by omega),
    byteAt_lt raw_data (x + 7) (by omega), byteAt_lt raw_data (x + 8) (by omega),
    byteAt_lt raw_data (x + 9) (by omega), byteAt_lt raw_data (x + 10) (by omega),
    byteAt_lt raw_data (x + 11) (by omega), byteAt_lt raw_data (x + 12) (by omega),
    byteAt_lt raw_data (x + 13) (by omega), hrt, ok_bind, pure_eq_ok]

/-! ## Claims -/

/-- C1: canonical Huffman assignment on the spec's two reference inputs:
counts with one code of length 2 and symbol 0xAB yield exactly the code
(length 2, code 0b00, value 0xAB); counts with one length-1 and one
length-2 code and symbols 0x01, 0x02 yield exactly (1, 0b0, 0x01) and
(2, 0b10, 0x02), in that order. -/
theorem C1_huffman_reference_inputs :
    HuffmanTable.from_size_data [0, 1, 0, 0, 0, 0, 0, 0, 0, 0, 0, 0, 0, 0, 0, 0] [0xAB] =
      some (HuffmanTable.mk [HuffmanCode.mk 2 0 0xAB]) ∧
    HuffmanTable.from_size_data [1, 1, 0, 0, 0, 0, 0, 0, 0, 0, 0, 0, 0, 0, 0, 0] [0x01, 0x02] =
      some (HuffmanTable.mk [HuffmanCode.mk 1 0 0x01, HuffmanCode.mk 2 2 0x02]) := by
  decide

/-- C2 counterexample: the builder CAN wrap the code value modulo 2^16.
For counts [1,...,1,2,1] the 17th entry is assigned code 0 at length 16,
while the same walk in unbounded integers assigns 65536 = 2^16 at that
position: the output entry carries 65536 reduced modulo 2^16, and the
0xFFFF sentinel never fires because the left shift skips over it. -/
theorem C2_counterexample_wrap :
    (HuffmanTable.from_size_data [1, 1, 1, 1, 1, 1, 1, 1, 1, 1, 1, 1, 1, 1, 2, 1]
        (List.replicate 17 0)).map (fun t => t.codes.get? 16) =
      some (some (HuffmanCode.mk 16 0 0)) ∧
    (make_code_table_unbounded
        (expandLengths 0 [1, 1, 1, 1, 1, 1, 1, 1, 1, 1, 1, 1, 1, 1, 2, 1])).map
      (fun ct => ct.get? 16) = some (some 65536) := by
  decide

/-- C2 (amended): an entry whose assigned code is the sentinel 0xFFFF is
always the LAST entry of the code table — after assigning it, no further
entry is assigned a code. -/
theorem C2_sentinel_stops_assignment (sizes ct : List Nat) (i : Nat)
    (hct : HuffmanTable.make_code_table sizes = some ct)
    (hi : ct.get? i = some 65535) : ct.length = i + 1 := by
  cases sizes with
  | nil => simp [HuffmanTable.make_code_table] at hct
  | cons s rest =>
    simp only [HuffmanTable.make_code_table, Option.some.injEq] at hct
    subst hct
    exact mctLoop_sentinel (s :: rest) 0 s i hi

/-- Witness for C2's amended theorem: counts with one code of each length
1..15 and two codes of length 16 reach the sentinel exactly at the last
(17th) entry, and the table ends there. -/
theorem C2_sentinel_witness :
    ([0, 2, 6, 14, 30, 62, 126, 254, 510, 1022, 2046, 4094, 8190, 16382, 32766,
      65534, 65535] : List Nat).length = 16 + 1 :=
  C2_sentinel_stops_assignment
    (expandLengths 0 [1, 1, 1, 1, 1, 1, 1, 1, 1, 1, 1, 1, 1, 1, 1, 2])
    [0, 2, 6, 14, 30, 62, 126, 254, 510, 1022, 2046, 4094, 8190, 16382, 32766,
      65534, 65535] 16 (by decide) (by decide)

/-- C3 counterexample: skips are not bounds-checked and do not fail.  A
start-of-frame segment whose declared length runs past the end of the
buffer is skipped without any error and the parse returns successfully,
so it is not the case that every read or skip that exceeds the remaining
bytes fails with a typed end-of-input error. -/
theorem C3_counterexample_skip_past_end :
    parse [0xff, 0xc0, 0x00, 0x05, 0x00] =
      Except.ok (JPEGEncoded.mk JFIFData.default0
        (List.replicate 4 QuantizationTable.zero) 0
        (List.replicate 32 HuffmanTable.empty) (List.replicate 32 HuffmanTable.empty)) := by
  decide

/-- C3 (amended): a DQT segment declaring length 67 whose buffer ends 10
bytes before the 64 coefficient bytes complete fails with the
out-of-bounds failure at buffer position 59 (the first missing byte) —
not with a typed UnexpectedEof, which does not exist in the code; the
identifier byte was already consumed when the failure occurs. -/
theorem C3_truncated_dqt_oob :
    parse ([0xff, 0xdb, 0x00, 0x43, 0x00] ++ List.replicate 54 1) =
      Except.error (PErr.oob 59) := by
  decide

/-- C4: the thumbnail pixels produced by `parse_jfif_data` are taken from
the beginning of the whole stream buffer (absolute offset 0, pixel j made
of the bytes at positions j, j+1, j+2 — see `thumbPix`), not from the
cursor's post-header offset (which ends at x + 14), and the thumbnail list
has length exactly width times height. -/
theorem C4_thumbnail_from_offset_zero (raw_data : List Nat) (x : Nat)
    (h13 : x + 13 < raw_data.length)
    (hwh : raw_data.getD (x + 12) 0 * raw_data.getD (x + 13) 0 = 0 ∨
           raw_data.getD (x + 12) 0 * raw_data.getD (x + 13) 0 + 1 < raw_data.length) :
    (parse_jfif_data raw_data x).map (fun p => (p.1.thumbnail_data, p.2)) =
      Except.ok (thumbPix raw_data 0
        (raw_data.getD (x + 12) 0 * raw_data.getD (x + 13) 0), x + 14) ∧
    (parse_jfif_data raw_data x).map (fun p => p.1.thumbnail_data.length) =
      Except.ok (raw_data.getD (x + 12) 0 * raw_data.getD (x + 13) 0) := by
  rw [parse_jfif_data_eq raw_data x h13 hwh]
  constructor
  · rfl
  · simp [Except.map, thumbPix_length]

/-- Witness for C4 at a concrete 14-byte buffer with a 1x1 thumbnail:
the single pixel is made of the buffer's first three bytes 9, 8, 7. -/
theorem C4_witness :
    (parse_jfif_data [9, 8, 7, 6, 5, 1, 1, 0, 0, 72, 0, 72, 1, 1] 0).map
        (fun p => (p.1.thumbnail_data, p.2)) =
      Except.ok (thumbPix [9, 8, 7, 6, 5, 1, 1, 0, 0, 72, 0, 72, 1, 1] 0 1, 14) ∧
    (parse_jfif_data [9, 8, 7, 6, 5, 1, 1, 0, 0, 72, 0, 72, 1, 1] 0).map
        (fun p => p.1.thumbnail_data.length) = Except.ok 1 :=
  C4_thumbnail_from_offset_zero [9, 8, 7, 6, 5, 1, 1, 0, 0, 72, 0, 72, 1, 1] 0
    (by decide) (by decide)

/-- C5 counterexample: two back-to-back quantization tables, both with
identifier nibble 0, inside one DQT segment are stored in slots 0 and 1
with the count ending at 2 — the second does not overwrite the first and
is not stored in the slot named by its identifier. -/
theorem C5_counterexample_sequential_storage :
    (parse ([0xff, 0xdb, 0x00, 0x84] ++ (0x00 :: List.replicate 64 7) ++
        (0x00 :: List.replicate 64 9))).map
      (fun e => (e.q_tables_nbr, e.q_tables.map fun t => t.data.head?)) =
      Except.ok (2, [some 7, some 9, some 0, some 0]) := by
  decide

/-- C5 (amended): each iteration of the DQT loop stores the decoded table
at index `q_tables_nbr` — whatever the identifier nibble holds — and then
increments the count; once the count has reached 4 the next store is an
out-of-bounds write into the 4-slot array. -/
theorem C5_tables_appended_ignoring_identifier (raw_data : List Nat)
    (segment_end fuel index q_tables_nbr : Nat) (q_tables : List QuantizationTable)
    (t : QuantizationTable) (i2 : Nat)
    (hin : index < segment_end)
    (hp : parse_quantization_table raw_data index = Except.ok (t, i2)) :
    dqtLoop raw_data segment_end (fuel + 1) index q_tables q_tables_nbr =
      if q_tables_nbr < 4 then
        dqtLoop raw_data segment_end fuel i2 (q_tables.set q_tables_nbr t) (q_tables_nbr + 1)
      else Except.error PErr.oobLocal := by
  simp [dqtLoop, hin, hp, ok_bind]

/-- Witness for C5's amended theorem: a table with identifier nibble 5
(first byte 0x35) is nevertheless stored at slot 0, the running count. -/
theorem C5_witness :
    dqtLoop (0x35 :: List.replicate 64 5) 65 1 0
      (List.replicate 4 QuantizationTable.zero) 0 =
      if 0 < 4 then
        dqtLoop (0x35 :: List.replicate 64 5) 65 0 65
          ((List.replicate 4 QuantizationTable.zero).set 0
            (QuantizationTable.mk (List.replicate 64 5))) 1
      else Except.error PErr.oobLocal :=
  C5_tables_appended_ignoring_identifier (0x35 :: List.replicate 64 5) 65 0 0 0
    (List.replicate 4 QuantizationTable.zero)
    (QuantizationTable.mk (List.replicate 64 5)) 65 (by decide) (by decide)

/-- C6: when the byte at a marker-scanning position is not 0xFF, the scan
fails immediately with the invalid-marker failure carrying that byte
offset (the source's bare throw at the non-0xFF branch), whatever the
state accumulated so far; no recovery is attempted. -/
theorem C6_invalid_marker_byte_fails (raw_data : List Nat) (fuel index : Nat)
    (jfif_data : JFIFData) (q_tables : List QuantizationTable) (q_tables_nbr : Nat)
    (dc ac : List HuffmanTable)
    (hlt : index < raw_data.length) (hff : raw_data.getD index 0 ≠ 0xff) :
    parseLoop raw_data (fuel + 1) index jfif_data q_tables q_tables_nbr dc ac =
      Except.error (PErr.invalidMarkerPrefixAt index) := by
  simp only [parseLoop]
  rw [if_pos hlt, if_neg hff]

/-- Witness for C6: a stream starting with byte 0x00 where a marker prefix
is expected fails with the invalid-marker failure at offset 0. -/
theorem C6_witness :
    parse [0x00] = Except.error (PErr.invalidMarkerPrefixAt 0) :=
  C6_invalid_marker_byte_fails [0x00] 1 0 JFIFData.default0
    (List.replicate 4 QuantizationTable.zero) 0
    (List.replicate 32 HuffmanTable.empty) (List.replicate 32 HuffmanTable.empty)
    (by decide) (by decide)

/-- C7 counterexample: a well-matched input whose count total is 257
(greater than 256) is accepted by the builder — it does not fail, so the
builder does not validate the computed total (and no typed
invalid-Huffman-table failure exists in the code). -/
theorem C7_counterexample_total_257_accepted :
    (HuffmanTable.from_size_data (255 :: 2 :: List.replicate 14 0)
      (List.replicate 257 7)).isSome = true := by
  decide

/-- C7 (amended): the builder performs no input validation: the same
257-symbol input is processed in full, yielding one code per symbol. -/
theorem C7_no_validation_total_257 :
    (HuffmanTable.from_size_data (255 :: 2 :: List.replicate 14 0)
        (List.replicate 257 7)).map (fun t => t.codes.length) = some 257 := by
  decide

/-- C8 counterexample: for the all-zero-counts/empty-symbol-list input the
builder fails: the expanded lengths sequence is empty and
`make_code_table` reads its first element out of bounds, so the
out-of-bounds branch IS reachable on an input whose symbol-list length
equals the sum of the counts. -/
theorem C8_counterexample_all_zero_counts :
    HuffmanTable.from_size_data (List.replicate 16 0) [] = none := by
  decide

/-- C8 (amended): when the symbol-list length equals the sum of the counts
AND the code walk succeeds with a code table at least as long as the
symbol list (no early termination cuts it short), every access of the
pairing loop is in bounds and one Huffman code is produced per symbol. -/
theorem C8_inbounds_when_no_early_stop (size_data data_area ct : List Nat)
    (hsum : data_area.length = size_data.sum)
    (hct : HuffmanTable.make_code_table (expandLengths 0 size_data) = some ct)
    (hctlen : data_area.length ≤ ct.length) :
    (HuffmanTable.from_size_data size_data data_area).map (fun t => t.codes.length) =
      some data_area.length := by
  have hexp : (expandLengths 0 size_data).length = size_data.sum :=
    expandLengths_length 0 size_data
  have h1 : data_area.length ≤ (expandLengths 0 size_data).length := by omega
  have hlen := pairCodes_length data_area (expandLengths 0 size_data) ct h1 hctlen
  cases hp : pairCodes (expandLengths 0 size_data) ct data_area with
  | none => rw [hp] at hlen; simp at hlen
  | some codes =>
    rw [hp] at hlen
    have hc : codes.length = data_area.length := by simpa using hlen
    simp [HuffmanTable.from_size_data, hct, hp, hc]

/-- Witness for C8's amended theorem at the two-symbol reference input. -/
theorem C8_witness :
    (HuffmanTable.from_size_data [1, 1, 0, 0, 0, 0, 0, 0, 0, 0, 0, 0, 0, 0, 0, 0]
        [1, 2]).map (fun t => t.codes.length) = some 2 :=
  C8_inbounds_when_no_early_stop [1, 1, 0, 0, 0, 0, 0, 0, 0, 0, 0, 0, 0, 0, 0, 0]
    [1, 2] [0, 2] (by decide) (by decide) (by decide)

/-- C9 counterexample: two synthetic DQT table payloads that differ only
in the identifier nibble (1 versus 2) decode to EQUAL results, so the
returned table does not carry the identifier; both succeed with the 64
coefficients in wire order. -/
theorem C9_counterexample_identifier_dropped :
    parse_quantization_table (0x01 :: List.replicate 64 5) 0 =
      parse_quantization_table (0x02 :: List.replicate 64 5) 0 ∧
    parse_quantization_table (0x01 :: List.replicate 64 5) 0 =
      Except.ok (QuantizationTable.mk (List.replicate 64 5), 65) := by
  decide

/-- C9 (amended): for every synthetically built table payload — any
identifier/precision byte b followed by 64 coefficient bytes vs — the
decoder returns exactly those 64 values in the same wire order (and
consumes 65 bytes); the identifier nibble of b is read but discarded. -/
theorem C9_roundtrip_values_only (b : Nat) (vs rest : List Nat)
    (hvs : vs.length = 64) :
    parse_quantization_table (b :: (vs ++ rest)) 0 =
      Except.ok (QuantizationTable.mk vs, 65) := by
  have hb : byteAt (b :: (vs ++ rest)) 0 = Except.ok b := rfl
  have h1 : readBytes (b :: (vs ++ rest)) 1 64 = Except.ok vs := by
    have h := readBytes_eq (b :: (vs ++ rest)) 64 1
      (by simp only [List.length_cons, List.length_append, hvs]; omega)
    have htake : (vs ++ rest).take 64 = vs := by
      rw [← hvs]
      exact List.take_left vs rest
    rw [show ((b :: (vs ++ rest)).drop 1) = vs ++ rest from rfl, htake] at h
    exact h
  simp [parse_quantization_table, hb, h1, ok_bind, pure_eq_ok]

/-- Witness for C9's amended theorem: identifier byte 3 with 64 known
coefficients and a trailing byte. -/
theorem C9_witness :
    parse_quantization_table (3 :: (List.replicate 64 5 ++ [9])) 0 =
      Except.ok (QuantizationTable.mk (List.replicate 64 5), 65) :=
  C9_roundtrip_values_only 3 (List.replicate 64 5) [9] (by decide)

/-- C10 counterexample: an APP0 payload whose density-unit byte is 3
(outside 0, 1, 2) is decoded WITHOUT error — the byte is stored as-is and
no unknown-density-unit failure exists in the code. -/
theorem C10_counterexample_density_three_accepted :
    parse_jfif_data [0, 0, 0, 0, 0, 1, 1, 3, 0, 72, 0, 72, 0, 0] 0 =
      Except.ok (JFIFData.mk (JFIFVersion.mk 1 1) 3 72 72 0 0 [], 14) := by
  decide

/-- C10 (amended): the density-unit byte is stored unvalidated: the
decoded `density_unit` field always equals the raw byte at offset x + 7,
and in particular bytes 0, 1, 2 map to the enumerators none,
pixels-per-inch and pixels-per-cm respectively. -/
theorem C10_density_byte_stored_unvalidated (raw_data : List Nat) (x : Nat)
    (h13 : x + 13 < raw_data.length)
    (hwh : raw_data.getD (x + 12) 0 * raw_data.getD (x + 13) 0 = 0 ∨
           raw_data.getD (x + 12) 0 * raw_data.getD (x + 13) 0 + 1 < raw_data.length) :
    (parse_jfif_data raw_data x).map (fun p => p.1.density_unit) =
      Except.ok (raw_data.getD (x + 7) 0) ∧
    (raw_data.getD (x + 7) 0 = 0 →
      (parse_jfif_data raw_data x).map (fun p => p.1.density_unit) =
        Except.ok DensityUnit.NoUnit) ∧
    (raw_data.getD (x + 7) 0 = 1 →
      (parse_jfif_data raw_data x).map (fun p => p.1.density_unit) =
        Except.ok DensityUnit.PixelPerInch) ∧
    (raw_data.getD (x + 7) 0 = 2 →
      (parse_jfif_data raw_data x).map (fun p => p.1.density_unit) =
        Except.ok DensityUnit.PixelPerCm) := by
  rw [parse_jfif_data_eq raw_data x h13 hwh]
  refine ⟨rfl, fun h => ?_, fun h => ?_, fun h => ?_⟩ <;>
    (show Except.ok (raw_data.getD (x + 7) 0) = _
     rw [h]
     rfl)

/-- Witness for C10 at a concrete buffer whose density byte is 3: the
stored field is the raw byte 3. -/
theorem C10_witness :
    (parse_jfif_data [0, 0, 0, 0, 0, 1, 1, 3, 0, 72, 0, 72, 0, 0] 0).map
        (fun p => p.1.density_unit) =
      Except.ok ([0, 0, 0, 0, 0, 1, 1, 3, 0, 72, 0, 72, 0, 0].getD (0 + 7) 0) ∧
    (([0, 0, 0, 0, 0, 1, 1, 3, 0, 72, 0, 72, 0, 0] : List Nat).getD (0 + 7) 0 = 0 →
      (parse_jfif_data [0, 0, 0, 0, 0, 1, 1, 3, 0, 72, 0, 72, 0, 0] 0).map
          (fun p => p.1.density_unit) = Except.ok DensityUnit.NoUnit) ∧
    (([0, 0, 0, 0, 0, 1, 1, 3, 0, 72, 0, 72, 0, 0] : List Nat).getD (0 + 7) 0 = 1 →
      (parse_jfif_data [0, 0, 0, 0, 0, 1, 1, 3, 0, 72, 0, 72, 0, 0] 0).map
          (fun p => p.1.density_unit) = Except.ok DensityUnit.PixelPerInch) ∧
    (([0, 0, 0, 0, 0, 1, 1, 3, 0, 72, 0, 72, 0, 0] : List Nat).getD (0 + 7) 0 = 2 →
      (parse_jfif_data [0, 0, 0, 0, 0, 1, 1, 3, 0, 72, 0, 72, 0, 0] 0).map
          (fun p => p.1.density_unit) = Except.ok DensityUnit.PixelPerCm) :=
  C10_density_byte_stored_unvalidated [0, 0, 0, 0, 0, 1, 1, 3, 0, 72, 0, 72, 0, 0] 0
    (by decide) (by decide)

end JpegDec
